import Mathlib

/-!
Verification of the asset-load coordination, scene-composition and input
pipeline of the three-starter Game orchestrator (src/js/Game/Game.js).

Pure fragments of the orchestrator are embedded as executable Lean
functions; asynchronous callback structure is embedded as explicit event
traces and state machines.  Components whose implementation files are not
part of the repository snapshot (the manager classes imported by Game.js)
are modelled from the specification, as marked in their doc comments.
-/

/-- An asset descriptor, as issued to the loaders (identifier plus source
path; transform hints are irrelevant to the coordination logic). -/
structure AssetDescriptor where
  identifier : String
  sourcePath : String
deriving DecidableEq

/-- Aggregate load failure: the failing asset's identifier and cause. -/
structure AssetLoadError where
  identifier : String
  cause : String
deriving DecidableEq

/-- The value of a successful load outcome, if any. -/
def okValue {ε α : Type} : Except ε α → Option α
  | Except.ok v => some v
  | Except.error _ => none

/-- Modelled from the spec: the LoadBatch record tracked by the load
coordinator (ModelManager.loadModels / GeometryManager.loadGeometries are
not in the repository snapshot).  `slots` holds per-descriptor results by
input position, `fires` records every firing of the continuation. -/
structure BatchState (α : Type) where
  total : Nat
  slots : Nat → Option α
  completed : Nat
  failed : Bool
  fires : List (Except AssetLoadError (List α))

/-- Modelled from the spec: processing of one completion event (index `i`
finished with outcome `r`).  After a failure the batch is poisoned and
remaining completions are no-ops; on the last success the continuation is
fired with the slot contents in input-position order. -/
def batchStep {α : Type} (s : BatchState α) (i : Nat) (r : Except AssetLoadError α) :
    BatchState α :=
  if s.failed then s
  else
    match r with
    | Except.ok v =>
      let slots := fun j => if j = i then some v else s.slots j
      let completed := s.completed + 1
      if completed = s.total then
        { s with slots := slots, completed := completed,
                 fires := s.fires ++ [Except.ok ((List.range s.total).filterMap slots)] }
      else
        { s with slots := slots, completed := completed }
    | Except.error e =>
      { s with failed := true, fires := s.fires ++ [Except.error e] }

/-- Modelled from the spec: a fresh batch over `n` descriptors; with zero
descriptors the continuation fires immediately (completed count equals
total at creation). -/
def initialBatch (α : Type) (n : Nat) : BatchState α :=
  { total := n, slots := fun _ => none, completed := 0, failed := false,
    fires := if n = 0 then [Except.ok []] else [] }

/-- The outcome of the individual load of descriptor number `i`. -/
def loadOutcome {δ α : Type} (ds : List δ) (loader : δ → Except AssetLoadError α)
    (i : Nat) : Except AssetLoadError α :=
  match ds[i]? with
  | some d => loader d
  | none => Except.error { identifier := "", cause := "descriptor index out of range" }

/-- Modelled from the spec: the load coordinator (`awaitAll`).  The loads
of `ds` complete in the arbitrary order given by `order` (a permutation of
the descriptor indices); each completion is folded into the batch. -/
def awaitAll {δ α : Type} (ds : List δ) (loader : δ → Except AssetLoadError α)
    (order : List Nat) : BatchState α :=
  order.foldl (fun s i => batchStep s i (loadOutcome ds loader i))
    (initialBatch α ds.length)

example :
    (awaitAll [(⟨"Fox", "models/Fox.glb"⟩ : AssetDescriptor),
               ⟨"IceTruck", "models/CesiumMilkTruck.glb"⟩]
      (fun d => Except.ok d.identifier) [1, 0]).fires
      = [Except.ok ["Fox", "IceTruck"]] := rfl

/-- The slot contents determined by the set of already-completed loads. -/
def slotsFormula {δ α : Type} (ds : List δ) (loader : δ → Except AssetLoadError α)
    (order : List Nat) : Nat → Option α :=
  fun j => if j ∈ order then okValue (loadOutcome ds loader j) else none

lemma batchStep_of_failed {α : Type} (s : BatchState α) (i : Nat)
    (r : Except AssetLoadError α) (h : s.failed = true) : batchStep s i r = s := by
  simp [batchStep, h]

lemma batchStep_ok_fire {α : Type} (s : BatchState α) (i : Nat) (v : α)
    (h : s.failed = false) (hc : s.completed + 1 = s.total) :
    batchStep s i (Except.ok v) =
      { s with slots := fun j => if j = i then some v else s.slots j,
               completed := s.completed + 1,
               fires := s.fires ++ [Except.ok ((List.range s.total).filterMap
                 (fun j => if j = i then some v else s.slots j))] } := by
  simp [batchStep, h, hc]

lemma batchStep_ok_pending {α : Type} (s : BatchState α) (i : Nat) (v : α)
    (h : s.failed = false) (hc : ¬ s.completed + 1 = s.total) :
    batchStep s i (Except.ok v) =
      { s with slots := fun j => if j = i then some v else s.slots j,
               completed := s.completed + 1 } := by
  simp [batchStep, h, hc]

lemma batchStep_error_of_live {α : Type} (s : BatchState α) (i : Nat) (e : AssetLoadError)
    (h : s.failed = false) :
    batchStep s i (Except.error e) =
      { s with failed := true, fires := s.fires ++ [Except.error e] } := by
  simp [batchStep, h]

lemma filterMap_congr_mem {α β : Type} (l : List α) (f g : α → Option β)
    (h : ∀ a ∈ l, f a = g a) : l.filterMap f = l.filterMap g := by
  induction l with
  | nil => rfl
  | cons a t ih =>
    rw [List.filterMap_cons, List.filterMap_cons, h a (by simp),
      ih (fun b hb => h b (by simp [hb]))]

lemma filterMap_loadOutcome_range {δ α : Type} (ds : List δ)
    (loader : δ → Except AssetLoadError α) :
    (List.range ds.length).filterMap (fun j => okValue (loadOutcome ds loader j))
      = ds.filterMap (fun d => okValue (loader d)) := by
  induction ds with
  | nil => rfl
  | cons d t ih =>
    have h1 : List.range (d :: t).length = 0 :: (List.range t.length).map Nat.succ := by
      simpa using List.range_succ_eq_map t.length
    have h2 : ∀ j : Nat, loadOutcome (d :: t) loader (Nat.succ j) = loadOutcome t loader j := by
      intro j; simp [loadOutcome]
    have h0 : loadOutcome (d :: t) loader 0 = loader d := by simp [loadOutcome]
    rw [h1, List.filterMap_cons, List.filterMap_map, h0]
    have h3 : ((fun j => okValue (loadOutcome (d :: t) loader j)) ∘ Nat.succ)
        = fun j => okValue (loadOutcome t loader j) := by
      funext j; simp [h2 j]
    rw [h3, ih, List.filterMap_cons]

/-- Main invariant of the load batch: processing any duplicate-free set of
in-range completion events leaves the batch either fully consistent (all
outcomes succeeded: counts, slots and firings as expected) or poisoned by
the first failure (exactly one firing, carrying a failing load's error). -/
theorem awaitAll_inv {δ α : Type} (ds : List δ) (loader : δ → Except AssetLoadError α) :
    ∀ order : List Nat, order.Nodup → (∀ i ∈ order, i < ds.length) →
    ((∀ i ∈ order, (okValue (loadOutcome ds loader i)).isSome) →
      (awaitAll ds loader order).total = ds.length ∧
      (awaitAll ds loader order).failed = false ∧
      (awaitAll ds loader order).completed = order.length ∧
      (awaitAll ds loader order).slots = slotsFormula ds loader order ∧
      (awaitAll ds loader order).fires =
        (if order.length = ds.length then
          [Except.ok ((List.range ds.length).filterMap (slotsFormula ds loader order))]
        else []))
    ∧ ((∃ i ∈ order, ¬ (okValue (loadOutcome ds loader i)).isSome) →
      (awaitAll ds loader order).failed = true ∧
      ∃ e, (awaitAll ds loader order).fires = [Except.error e] ∧
        ∃ j ∈ order, loadOutcome ds loader j = Except.error e) := by
  intro order
  induction order using List.reverseRecOn with
  | nil =>
    intro _ _
    constructor
    · intro _
      refine ⟨rfl, rfl, rfl, ?_, ?_⟩
      · funext j; simp [awaitAll, initialBatch, slotsFormula]
      · by_cases h0 : ds.length = 0
        · simp [awaitAll, initialBatch, h0]
        · have h0' : ¬ (0 = ds.length) := fun h => h0 h.symm
          simp [awaitAll, initialBatch, h0, h0']
    · intro h; simp at h
  | append_singleton l a ih =>
    intro hnodup hbound
    have hln : l.Nodup := hnodup.of_append_left
    have hanl : a ∉ l := by
      rw [List.nodup_append] at hnodup
      exact fun h => hnodup.2.2 h (List.mem_singleton_self a)
    have hboundl : ∀ i ∈ l, i < ds.length := fun i hi => hbound i (by simp [hi])
    have haB : a < ds.length := hbound a (by simp)
    have hsub : l ++ [a] ⊆ List.range ds.length := by
      intro x hx; rw [List.mem_range]; exact hbound x hx
    have hlen1 : l.length + 1 ≤ ds.length := by
      have h1 := (List.subperm_of_subset hnodup hsub).length_le
      simpa using h1
    have hstep : awaitAll ds loader (l ++ [a]) =
        batchStep (awaitAll ds loader l) a (loadOutcome ds loader a) := by
      simp [awaitAll, List.foldl_append]
    have ihl := ih hln hboundl
    constructor
    · -- all outcomes in l ++ [a] succeed
      intro hok
      have hokl : ∀ i ∈ l, (okValue (loadOutcome ds loader i)).isSome :=
        fun i hi => hok i (by simp [hi])
      have hoka : (okValue (loadOutcome ds loader a)).isSome := hok a (by simp)
      obtain ⟨v, hv⟩ : ∃ v, loadOutcome ds loader a = Except.ok v := by
        cases hcase : loadOutcome ds loader a with
        | ok v => exact ⟨v, rfl⟩
        | error e => rw [hcase] at hoka; simp [okValue] at hoka
      obtain ⟨htot, hfail, hcomp, hslots, hfires⟩ := ihl.1 hokl
      have hfires0 : (awaitAll ds loader l).fires = [] := by
        rw [hfires, if_neg]; omega
      have hslots' :
          (fun j => if j = a then some v else (awaitAll ds loader l).slots j)
            = slotsFormula ds loader (l ++ [a]) := by
        funext j
        by_cases hja : j = a
        · subst hja
          simp [slotsFormula, hv, okValue]
        · rw [hslots]
          simp [slotsFormula, hja]
      rw [hstep, hv]
      by_cases hfin : l.length + 1 = ds.length
      · rw [batchStep_ok_fire _ _ _ hfail (by rw [hcomp, htot]; exact hfin)]
        refine ⟨htot, hfail, by simp [hcomp], ?_, ?_⟩
        · simpa using hslots'
        · rw [hfires0, htot, hslots']
          have hlen' : (l ++ [a]).length = ds.length := by simpa using hfin
          simp [hlen']
      · rw [batchStep_ok_pending _ _ _ hfail (by rw [hcomp, htot]; exact hfin)]
        refine ⟨htot, hfail, by simp [hcomp], ?_, ?_⟩
        · simpa using hslots'
        · simp [hfires0]
          omega
    · -- some outcome in l ++ [a] fails
      intro hfail
      by_cases hall : ∀ i ∈ l, (okValue (loadOutcome ds loader i)).isSome
      · -- the failing event is the last one
        obtain ⟨i, hi, hPi⟩ := hfail
        have hia : i = a := by
          rcases List.mem_append.mp hi with h | h
          · exact absurd (hall i h) hPi
          · simpa using h
        subst hia
        obtain ⟨e, he⟩ : ∃ e, loadOutcome ds loader i = Except.error e := by
          cases hcase : loadOutcome ds loader i with
          | ok v => rw [hcase] at hPi; simp [okValue] at hPi
          | error e => exact ⟨e, rfl⟩
        obtain ⟨htot, hfailF, hcomp, hslots, hfires⟩ := ihl.1 hall
        have hfires0 : (awaitAll ds loader l).fires = [] := by
          rw [hfires, if_neg]; omega
        rw [hstep, he, batchStep_error_of_live _ _ _ hfailF]
        refine ⟨rfl, e, by simp [hfires0], i, by simp, he⟩
      · -- a failure already occurred among the first events
        push_neg at hall
        obtain ⟨i, hi, hPi⟩ := hall
        obtain ⟨hfailT, e, hfire, j, hj, hje⟩ := ihl.2 ⟨i, hi, hPi⟩
        rw [hstep, batchStep_of_failed _ _ _ hfailT]
        exact ⟨hfailT, e, hfire, j, by simp [hj], hje⟩

/-- The continuation structure of Game.init around the aggregate load
(Game.js lines 139-182): a successful aggregate proceeds to scene
composition inside the callback, a failed aggregate is surfaced to the
initiator (modelled from the spec for the failure path, which the
snapshot's loadModels callback does not show) and composition is skipped. -/
inductive PipelineAction (α : Type) where
  | composeScene (results : List α)
  | surfaceError (e : AssetLoadError)
deriving DecidableEq

/-- Whether a pipeline action is a scene composition. -/
def isCompose {α : Type} : PipelineAction α → Bool
  | PipelineAction.composeScene _ => true
  | PipelineAction.surfaceError _ => false

/-- What Game.init does with each firing of the aggregate-load
continuation. -/
def initAfterLoads {α : Type} (fires : List (Except AssetLoadError (List α))) :
    List (PipelineAction α) :=
  fires.map (fun r => match r with
    | Except.ok res => PipelineAction.composeScene res
    | Except.error e => PipelineAction.surfaceError e)

/-- C1: for every list of N ≥ 0 asset descriptors submitted to the load
coordinator (modelManager.loadModels / geometryManager.loadGeometries), if
all N loads succeed then the completion continuation fires exactly once,
with the loaded results in the same positional order as the input
descriptors, regardless of the order in which individual loads complete. -/
theorem loadCoordinator_allOk_fires_once_in_order {δ α : Type}
    (ds : List δ) (loader : δ → Except AssetLoadError α) (order : List Nat)
    (hperm : order.Perm (List.range ds.length))
    (hok : ∀ d ∈ ds, (okValue (loader d)).isSome) :
    (awaitAll ds loader order).fires
      = [Except.ok (ds.filterMap (fun d => okValue (loader d)))] := by
  have hnodup : order.Nodup := (hperm.nodup_iff).mpr (List.nodup_range _)
  have hmem : ∀ i, i ∈ order ↔ i < ds.length := by
    intro i; rw [hperm.mem_iff, List.mem_range]
  have hbound : ∀ i ∈ order, i < ds.length := fun i hi => (hmem i).mp hi
  have hoko : ∀ i ∈ order, (okValue (loadOutcome ds loader i)).isSome := by
    intro i hi
    have hilt := hbound i hi
    cases hd : ds[i]? with
    | none =>
      have hlen : ds.length ≤ i := by simpa using List.getElem?_eq_none_iff.mp hd
      omega
    | some d =>
      have hdm : d ∈ ds := List.mem_iff_getElem?.mpr ⟨i, hd⟩
      simpa [loadOutcome, hd] using hok d hdm
  obtain ⟨-, -, -, -, hfires⟩ := (awaitAll_inv ds loader order hnodup hbound).1 hoko
  have hcg : (List.range ds.length).filterMap (slotsFormula ds loader order)
      = (List.range ds.length).filterMap (fun j => okValue (loadOutcome ds loader j)) := by
    apply filterMap_congr_mem
    intro j hj
    simp [slotsFormula, (hmem j).mpr (List.mem_range.mp hj)]
  rw [hfires, if_pos (by simpa using hperm.length_eq), hcg, filterMap_loadOutcome_range]

/-- The concrete model descriptors built in Game.init (lines 124-127). -/
def foxTruckDescriptors : List AssetDescriptor :=
  [⟨"Fox", "models/Fox.glb"⟩, ⟨"IceTruck", "models/CesiumMilkTruck.glb"⟩]

/-- A loader where every load succeeds with the asset's identifier. -/
def identityLoader : AssetDescriptor → Except AssetLoadError String :=
  fun d => Except.ok d.identifier

/-- Witness for C1: two concrete descriptors whose loads complete in the
reversed order still fire the continuation once, in input order. -/
theorem loadCoordinator_allOk_fires_once_in_order_witness :
    ([1, 0] : List Nat).Perm (List.range foxTruckDescriptors.length)
    ∧ (∀ d ∈ foxTruckDescriptors, (okValue (identityLoader d)).isSome)
    ∧ (awaitAll foxTruckDescriptors identityLoader [1, 0]).fires
      = [Except.ok (foxTruckDescriptors.filterMap (fun d => okValue (identityLoader d)))] :=
  ⟨by decide, by decide,
    loadCoordinator_allOk_fires_once_in_order foxTruckDescriptors identityLoader [1, 0]
      (by decide) (by decide)⟩

/-- C3: for every batch with at least one failing load, the aggregate
fails exactly once with an AssetLoadError that is the failing load's own
error (identifier and cause), the failure is surfaced, and scene
composition is never performed on the partial results. -/
theorem loadCoordinator_failure_aborts {δ α : Type}
    (ds : List δ) (loader : δ → Except AssetLoadError α) (order : List Nat)
    (hperm : order.Perm (List.range ds.length))
    (hfail : ∃ d ∈ ds, ¬ (okValue (loader d)).isSome) :
    ∃ e : AssetLoadError,
      (awaitAll ds loader order).fires = [Except.error e]
      ∧ (∃ d ∈ ds, loader d = Except.error e)
      ∧ initAfterLoads (awaitAll ds loader order).fires = [PipelineAction.surfaceError e]
      ∧ ∀ a ∈ initAfterLoads (awaitAll ds loader order).fires, isCompose a = false := by
  have hnodup : order.Nodup := (hperm.nodup_iff).mpr (List.nodup_range _)
  have hmem : ∀ i, i ∈ order ↔ i < ds.length := by
    intro i; rw [hperm.mem_iff, List.mem_range]
  have hbound : ∀ i ∈ order, i < ds.length := fun i hi => (hmem i).mp hi
  obtain ⟨d, hd, hnd⟩ := hfail
  obtain ⟨i, hi⟩ := List.mem_iff_getElem?.mp hd
  have hilt : i < ds.length := by
    by_contra hcon
    push_neg at hcon
    rw [List.getElem?_eq_none hcon] at hi
    exact Option.noConfusion hi
  have hio : i ∈ order := (hmem i).mpr hilt
  have hfaili : ¬ (okValue (loadOutcome ds loader i)).isSome := by
    simpa [loadOutcome, hi] using hnd
  obtain ⟨hfailT, e, hfires, j, hj, hje⟩ :=
    (awaitAll_inv ds loader order hnodup hbound).2 ⟨i, hio, hfaili⟩
  have hjlt : j < ds.length := hbound j hj
  obtain ⟨dj, hdj⟩ : ∃ dj, ds[j]? = some dj := by
    cases hcase : ds[j]? with
    | none =>
      have hlen : ds.length ≤ j := by simpa using List.getElem?_eq_none_iff.mp hcase
      omega
    | some dj => exact ⟨dj, rfl⟩
  refine ⟨e, hfires, ⟨dj, List.mem_iff_getElem?.mpr ⟨j, hdj⟩,
    by simpa [loadOutcome, hdj] using hje⟩, ?_, ?_⟩
  · rw [hfires]; rfl
  · rw [hfires]
    intro a ha
    simp [initAfterLoads] at ha
    simp [ha, isCompose]

/-- A loader that fails on the IceTruck descriptor. -/
def failTruckLoader : AssetDescriptor → Except AssetLoadError String :=
  fun d => if d.identifier = "IceTruck"
    then Except.error { identifier := "IceTruck", cause := "404 not found" }
    else Except.ok d.identifier

/-- Witness for C3: with the IceTruck load failing and loads completing in
reversed order, the aggregate fails exactly once and composition is
skipped. -/
theorem loadCoordinator_failure_aborts_witness :
    ([1, 0] : List Nat).Perm (List.range foxTruckDescriptors.length)
    ∧ (∃ d ∈ foxTruckDescriptors, ¬ (okValue (failTruckLoader d)).isSome)
    ∧ ∃ e : AssetLoadError,
      (awaitAll foxTruckDescriptors failTruckLoader [1, 0]).fires = [Except.error e]
      ∧ (∃ d ∈ foxTruckDescriptors, failTruckLoader d = Except.error e)
      ∧ initAfterLoads (awaitAll foxTruckDescriptors failTruckLoader [1, 0]).fires
          = [PipelineAction.surfaceError e]
      ∧ ∀ a ∈ initAfterLoads (awaitAll foxTruckDescriptors failTruckLoader [1, 0]).fires,
          isCompose a = false :=
  ⟨by decide, by decide,
    loadCoordinator_failure_aborts foxTruckDescriptors failTruckLoader [1, 0]
      (by decide) (by decide)⟩

/-- A node of the composed scene graph, looked up by identifier. -/
structure SceneNode where
  identifier : String
deriving DecidableEq

/-- Composition-time invariant violation: a duplicated identifier. -/
structure DuplicateIdentifierError where
  identifier : String
deriving DecidableEq

/-- Modelled from the spec: SceneComposer inserts nodes one by one into
the identifier-to-node index (SceneManager.addThings is not in the
snapshot); a node whose identifier is already indexed makes composition
fail fast with DuplicateIdentifierError instead of overwriting. -/
def composeAux : List SceneNode → List (String × SceneNode) →
    Except DuplicateIdentifierError (List (String × SceneNode))
  | [], index => Except.ok index
  | nd :: rest, index =>
    if nd.identifier ∈ index.map Prod.fst then Except.error ⟨nd.identifier⟩
    else composeAux rest (index ++ [(nd.identifier, nd)])

/-- Modelled from the spec: SceneComposer.compose merges the geometry,
model and light collections into one identifier-indexed scene graph. -/
def compose (geometries models lights : List SceneNode) :
    Except DuplicateIdentifierError (List (String × SceneNode)) :=
  composeAux (geometries ++ models ++ lights) []

example :
    compose [⟨"Ground"⟩, ⟨"Skybox"⟩] [⟨"Fox"⟩, ⟨"IceTruck"⟩] [⟨"MainSpotLight"⟩]
      = Except.ok [("Ground", ⟨"Ground"⟩), ("Skybox", ⟨"Skybox"⟩), ("Fox", ⟨"Fox"⟩),
          ("IceTruck", ⟨"IceTruck"⟩), ("MainSpotLight", ⟨"MainSpotLight"⟩)] := rfl

lemma composeAux_error_of_dup :
    ∀ (nodes : List SceneNode) (index : List (String × SceneNode)),
    (index.map Prod.fst).Nodup →
    ¬ (index.map Prod.fst ++ nodes.map SceneNode.identifier).Nodup →
    ∃ d : String, composeAux nodes index = Except.error ⟨d⟩ ∧
      1 < (index.map Prod.fst ++ nodes.map SceneNode.identifier).count d := by
  intro nodes
  induction nodes with
  | nil =>
    intro index hidx hdup
    exact absurd (by simpa using hidx) hdup
  | cons nd rest ih =>
    intro index hidx hdup
    by_cases hmem : nd.identifier ∈ index.map Prod.fst
    · refine ⟨nd.identifier, by simp [composeAux, hmem], ?_⟩
      have h1 : 1 ≤ (index.map Prod.fst).count nd.identifier :=
        List.count_pos_iff.mpr hmem
      rw [List.count_append]
      simp only [List.map_cons, List.count_cons_self]
      omega
    · have hidx' : ((index ++ [(nd.identifier, nd)]).map Prod.fst).Nodup := by
        rw [List.map_append]
        simp [List.nodup_append, hidx, hmem]
      have hre : index.map Prod.fst ++ (nd :: rest).map SceneNode.identifier
          = (index ++ [(nd.identifier, nd)]).map Prod.fst
              ++ rest.map SceneNode.identifier := by
        simp
      have hdup' : ¬ ((index ++ [(nd.identifier, nd)]).map Prod.fst
          ++ rest.map SceneNode.identifier).Nodup := by
        rw [← hre]; exact hdup
      obtain ⟨d, herr, hcount⟩ := ih (index ++ [(nd.identifier, nd)]) hidx' hdup'
      refine ⟨d, by simpa [composeAux, hmem] using herr, ?_⟩
      rw [hre]
      exact hcount

/-- C4: every composition call whose geometry, model and light input
collections contain a duplicate identifier (within one collection or
across collections) fails fast with a DuplicateIdentifierError naming a
duplicated identifier, instead of silently overwriting the earlier
node in the index. -/
theorem compose_duplicate_identifier_fails
    (geometries models lights : List SceneNode)
    (hdup : ¬ ((geometries ++ models ++ lights).map SceneNode.identifier).Nodup) :
    ∃ d : String, compose geometries models lights = Except.error ⟨d⟩ ∧
      1 < ((geometries ++ models ++ lights).map SceneNode.identifier).count d := by
  have h := composeAux_error_of_dup (geometries ++ models ++ lights) []
    (by simp) (by simpa using hdup)
  simpa [compose] using h

/-- The concrete ground geometry node of Game.init. -/
def groundNode : SceneNode := ⟨"Ground"⟩

/-- The concrete spot light node of Game.init. -/
def spotLightNode : SceneNode := ⟨"MainSpotLight"⟩

/-- Witness for C4: an identifier duplicated across the geometry and model
collections is rejected and named. -/
theorem compose_duplicate_identifier_fails_witness :
    (¬ (([groundNode] ++ [groundNode] ++ [spotLightNode]).map
        SceneNode.identifier).Nodup)
    ∧ ∃ d : String,
        compose [groundNode] [groundNode] [spotLightNode] = Except.error ⟨d⟩ ∧
        1 < (([groundNode] ++ [groundNode] ++ [spotLightNode]).map
          SceneNode.identifier).count d :=
  ⟨by decide,
    compose_duplicate_identifier_fails [groundNode] [groundNode] [spotLightNode]
      (by decide)⟩

/-- Modelled from the spec: the list of raycast hits (identifier and
ray-parameter distance), produced by testing every scene node in the
deterministic traversal order of the identifier index; `intersect` is the
opaque engine intersection primitive. -/
def rayHits {γ : Type} (intersect : ℚ × ℚ → γ → SceneNode → Option ℚ)
    (scene : List SceneNode) (mouse : ℚ × ℚ) (camera : γ) : List (String × ℚ) :=
  scene.filterMap (fun nd =>
    (intersect mouse camera nd).map (fun dist => (nd.identifier, dist)))

/-- Modelled from the spec: selection of the minimum-distance hit, ties
broken in favour of the earlier hit in traversal order. -/
def pickFirstMin : List (String × ℚ) → Option (String × ℚ)
  | [] => none
  | h :: t =>
    match pickFirstMin t with
    | none => some h
    | some b => if b.2 < h.2 then some b else some h

/-- Modelled from the spec: RaycasterManager.getTouchedElementIdentifier
(not in the snapshot) resolves a normalized pointer sample against the
scene graph and returns the nearest intersected identifier, or "none". -/
def getTouchedElementIdentifier {γ : Type}
    (intersect : ℚ × ℚ → γ → SceneNode → Option ℚ)
    (scene : List SceneNode) (mouse : ℚ × ℚ) (camera : γ) : String :=
  match pickFirstMin (rayHits intersect scene mouse camera) with
  | none => "none"
  | some c => c.1

lemma pickFirstMin_eq_none (l : List (String × ℚ)) :
    pickFirstMin l = none ↔ l = [] := by
  cases l with
  | nil => simp [pickFirstMin]
  | cons h t =>
    simp only [pickFirstMin]
    cases pickFirstMin t with
    | none => simp
    | some b =>
      by_cases hb : b.2 < h.2 <;> simp [hb]

lemma pickFirstMin_cons (h : String × ℚ) (t : List (String × ℚ)) (c : String × ℚ)
    (hc : pickFirstMin t = some c) :
    pickFirstMin (h :: t) = if c.2 < h.2 then some c else some h := by
  have h1 : pickFirstMin (h :: t)
      = match pickFirstMin t with
        | none => some h
        | some b => if b.2 < h.2 then some b else some h := rfl
  rw [h1, hc]

lemma pickFirstMin_spec : ∀ hits : List (String × ℚ), hits ≠ [] →
    ∃ c pre post, pickFirstMin hits = some c ∧ hits = pre ++ c :: post ∧
      (∀ x ∈ pre, c.2 < x.2) ∧ (∀ x ∈ hits, c.2 ≤ x.2) := by
  intro hits
  induction hits with
  | nil => intro h; exact absurd rfl h
  | cons h t ih =>
    intro _
    cases t with
    | nil => exact ⟨h, [], [], by simp [pickFirstMin], rfl, by simp, by simp⟩
    | cons h2 t2 =>
      obtain ⟨c, pre, post, hc, hsplit, hpre, hmin⟩ := ih (by simp)
      by_cases hlt : c.2 < h.2
      · refine ⟨c, h :: pre, post, by rw [pickFirstMin_cons h _ c hc]; simp [hlt],
          by simp [hsplit], ?_, ?_⟩
        · intro x hx
          rcases List.mem_cons.mp hx with hxh | hxp
          · rw [hxh]; exact hlt
          · exact hpre x hxp
        · intro x hx
          rcases List.mem_cons.mp hx with hxh | hxt
          · rw [hxh]; exact le_of_lt hlt
          · exact hmin x hxt
      · refine ⟨h, [], h2 :: t2, by rw [pickFirstMin_cons h _ c hc]; simp [hlt],
          rfl, by simp, ?_⟩
        intro x hx
        rcases List.mem_cons.mp hx with hxh | hxt
        · rw [hxh]
        · exact le_trans (not_lt.mp hlt) (hmin x hxt)

/-- C5: for every pointer sample, camera and scene graph, the raycast
resolver returns the identifier of the hit with minimum ray-parameter
distance (ties broken by the first hit in traversal order), and for an
empty scene graph it returns "none" for every pointer sample. -/
theorem raycaster_returns_min_distance_hit {γ : Type}
    (intersect : ℚ × ℚ → γ → SceneNode → Option ℚ)
    (scene : List SceneNode) (mouse : ℚ × ℚ) (camera : γ) :
    (scene = [] → getTouchedElementIdentifier intersect scene mouse camera = "none")
    ∧ (rayHits intersect scene mouse camera = [] →
        getTouchedElementIdentifier intersect scene mouse camera = "none")
    ∧ (rayHits intersect scene mouse camera ≠ [] →
        ∃ c pre post,
          rayHits intersect scene mouse camera = pre ++ c :: post
          ∧ getTouchedElementIdentifier intersect scene mouse camera = c.1
          ∧ (∀ x ∈ pre, c.2 < x.2)
          ∧ (∀ x ∈ rayHits intersect scene mouse camera, c.2 ≤ x.2)) := by
  refine ⟨?_, ?_, ?_⟩
  · intro hs
    subst hs
    rfl
  · intro hh
    simp [getTouchedElementIdentifier, (pickFirstMin_eq_none _).mpr hh]
  · intro hne
    obtain ⟨c, pre, post, hc, hsplit, hpre, hmin⟩ := pickFirstMin_spec _ hne
    exact ⟨c, pre, post, hsplit,
      by simp [getTouchedElementIdentifier, hc], hpre, hmin⟩

/-- A concrete two-node scene where the later node is the nearer one. -/
def twoNodeScene : List SceneNode := [⟨"FarWall"⟩, ⟨"NearCube"⟩]

/-- A concrete intersection primitive: the cube at distance 3, the wall at
distance 5 along the same ray. -/
def demoIntersect : ℚ × ℚ → Unit → SceneNode → Option ℚ :=
  fun _ _ nd => if nd.identifier = "NearCube" then some 3 else some 5

/-- Witness for C5: on the empty scene graph the resolver returns "none";
on the two-node scene both nodes are hit and the nearer NearCube wins. -/
theorem raycaster_returns_min_distance_hit_witness :
    (getTouchedElementIdentifier demoIntersect [] (0, 0) () = "none")
    ∧ (rayHits demoIntersect twoNodeScene (0, 0) () ≠ [])
    ∧ (∃ c pre post,
        rayHits demoIntersect twoNodeScene (0, 0) () = pre ++ c :: post
        ∧ getTouchedElementIdentifier demoIntersect twoNodeScene (0, 0) () = c.1
        ∧ (∀ x ∈ pre, c.2 < x.2)
        ∧ (∀ x ∈ rayHits demoIntersect twoNodeScene (0, 0) (), c.2 ≤ x.2))
    ∧ getTouchedElementIdentifier demoIntersect twoNodeScene (0, 0) () = "NearCube" :=
  ⟨(raycaster_returns_min_distance_hit demoIntersect [] (0, 0) ()).1 rfl,
   by decide,
   (raycaster_returns_min_distance_hit demoIntersect twoNodeScene (0, 0) ()).2.2
     (by decide),
   rfl⟩

/-- The per-session Game state relevant to the pointer boundary, as set up
by the constructor (Game.js lines 26-92).  The debug-only members exist
only when the debug flag is set. -/
structure Game (γ : Type) where
  debugMode : Bool
  highPerf : Bool
  mouse : ℚ × ℚ
  debuglogs : Option (List String)
  scene : List SceneNode
  camera : γ

/-- Game constructor (lines 26-63): stores the flags, zeroes the mouse
vector, and creates the DebugLogs panel only when isDebugMode holds. -/
def Game.construct {γ : Type} (isDebugMode highPerf : Bool)
    (scene : List SceneNode) (camera : γ) : Game γ :=
  { debugMode := isDebugMode, highPerf := highPerf, mouse := (0, 0),
    debuglogs := if isDebugMode then some [] else none,
    scene := scene, camera := camera }

/-- Result of one touchend delivery: the normalized mouse vector, the
resolved identifier, and the debug-log side effect, which throws when
this._debuglogs was never created. -/
structure TouchOutcome where
  mouse : ℚ × ℚ
  identifier : String
  handlerResult : Except String (List String)

/-- The x normalization of Game.onTouchEnd (line 206). -/
def normalizedX (clientX viewportWidth : ℚ) : ℚ :=
  clientX / viewportWidth * 2 - 1

/-- The y normalization of Game.onTouchEnd (line 207). -/
def normalizedY (clientY viewportHeight : ℚ) : ℚ :=
  -(clientY / viewportHeight) * 2 + 1

/-- Game.onTouchEnd (lines 203-215): normalizes the touch position to the
[-1,1] device range, resolves the raycast with the normalized mouse, then
unconditionally appends to the debug log panel. -/
def onTouchEnd {γ : Type} (g : Game γ)
    (intersect : ℚ × ℚ → γ → SceneNode → Option ℚ)
    (clientX clientY viewportWidth viewportHeight : ℚ) : TouchOutcome :=
  let mx := normalizedX clientX viewportWidth
  let my := normalizedY clientY viewportHeight
  let ident := getTouchedElementIdentifier intersect g.scene (mx, my) g.camera
  { mouse := (mx, my), identifier := ident,
    handlerResult :=
      match g.debuglogs with
      | some logs => Except.ok (logs ++ [String.append "RayCast -> " ident])
      | none => Except.error "TypeError: this._debuglogs is undefined" }

/-- C8: every pointer-up event with device pixel coordinates inside the
viewport is normalized to x in [-1,1] (left-to-right) and y in [1,-1]
(top-to-bottom) before the raycast resolver is invoked, and the resolver
is invoked with exactly that normalized sample. -/
theorem onTouchEnd_normalizes_before_raycast {γ : Type} (g : Game γ)
    (intersect : ℚ × ℚ → γ → SceneNode → Option ℚ) (cx cy w h : ℚ)
    (hw : 0 < w) (hh : 0 < h) (hcx0 : 0 ≤ cx) (hcxw : cx ≤ w)
    (hcy0 : 0 ≤ cy) (hcyh : cy ≤ h) :
    (onTouchEnd g intersect cx cy w h).mouse = (normalizedX cx w, normalizedY cy h)
    ∧ (-1 ≤ normalizedX cx w ∧ normalizedX cx w ≤ 1)
    ∧ (-1 ≤ normalizedY cy h ∧ normalizedY cy h ≤ 1)
    ∧ (cx = 0 → normalizedX cx w = -1)
    ∧ (cx = w → normalizedX cx w = 1)
    ∧ (cy = 0 → normalizedY cy h = 1)
    ∧ (cy = h → normalizedY cy h = -1)
    ∧ (onTouchEnd g intersect cx cy w h).identifier
        = getTouchedElementIdentifier intersect g.scene
            (normalizedX cx w, normalizedY cy h) g.camera := by
  have hqx0 : 0 ≤ cx / w := div_nonneg hcx0 (le_of_lt hw)
  have hqx1 : cx / w ≤ 1 := (div_le_one hw).mpr hcxw
  have hqy0 : 0 ≤ cy / h := div_nonneg hcy0 (le_of_lt hh)
  have hqy1 : cy / h ≤ 1 := (div_le_one hh).mpr hcyh
  refine ⟨rfl, ⟨?_, ?_⟩, ⟨?_, ?_⟩, ?_, ?_, ?_, ?_, rfl⟩
  · unfold normalizedX; linarith
  · unfold normalizedX; linarith
  · unfold normalizedY; linarith
  · unfold normalizedY; linarith
  · intro h0; rw [h0]; unfold normalizedX; norm_num
  · intro h0; rw [h0]; unfold normalizedX; rw [div_self (ne_of_gt hw)]; norm_num
  · intro h0; rw [h0]; unfold normalizedY; norm_num
  · intro h0; rw [h0]; unfold normalizedY; rw [div_self (ne_of_gt hh)]; norm_num

/-- Witness for C8: a touch at (50,100) in a 200x100 viewport normalizes
to the in-range sample the resolver receives, with y at the bottom edge
mapping to -1. -/
theorem onTouchEnd_normalizes_before_raycast_witness :
    ((0 : ℚ) < 200) ∧ ((0 : ℚ) < 100) ∧ ((0 : ℚ) ≤ 50) ∧ ((50 : ℚ) ≤ 200)
    ∧ (-1 ≤ normalizedX 50 200 ∧ normalizedX 50 200 ≤ 1)
    ∧ (-1 ≤ normalizedY 100 100 ∧ normalizedY 100 100 ≤ 1)
    ∧ normalizedY 100 100 = -1
    ∧ (onTouchEnd (Game.construct true false twoNodeScene ()) demoIntersect
        50 100 200 100).mouse = (normalizedX 50 200, normalizedY 100 100) := by
  have hthm := onTouchEnd_normalizes_before_raycast
    (Game.construct true false twoNodeScene ()) demoIntersect 50 100 200 100
    (by norm_num) (by norm_num) (by norm_num) (by norm_num) (by norm_num) (by norm_num)
  exact ⟨by norm_num, by norm_num, by norm_num, by norm_num,
    hthm.2.1, hthm.2.2.1, hthm.2.2.2.2.2.2.1 rfl, hthm.1⟩

/-- C9: with isDebugMode = false the constructor never creates
this._debuglogs, so every touchend delivery fails in the handler; with
isDebugMode = true the same delivery succeeds. -/
theorem onTouchEnd_fails_without_debug {γ : Type} (highPerf : Bool)
    (scene : List SceneNode) (camera : γ)
    (intersect : ℚ × ℚ → γ → SceneNode → Option ℚ) (cx cy w h : ℚ) :
    (onTouchEnd (Game.construct false highPerf scene camera)
        intersect cx cy w h).handlerResult
      = Except.error "TypeError: this._debuglogs is undefined"
    ∧ ∃ logs, (onTouchEnd (Game.construct true highPerf scene camera)
        intersect cx cy w h).handlerResult = Except.ok logs :=
  ⟨rfl, ⟨_, rfl⟩⟩

/-- The observable events of Game.init (lines 97-183) and of the render
loop Game._loop (lines 223-232), in the order the single-threaded host
executes them: the loadModels callback performs scene composition, camera
setup, controls binding and sound setup, and only then starts the loop. -/
inductive InitEv where
  | createRenderer
  | geometriesDefined
  | lightCreated (identifier : String)
  | geometryLoadsComplete (identifiers : List String)
  | modelLoadsComplete (identifiers : List String)
  | addThings (identifiers : List String)
  | setCameraPosition (x y z : Int)
  | lookAtTarget
  | bindDeviceOrientationControls
  | foxRepositioned
  | soundSetup
  | createGlobalAudio
  | createPositionalAudio
  | scheduleFrame (k : Nat)
  | statsBegin (k : Nat)
  | controlsUpdate (k : Nat)
  | renderCall (k : Nat)
  | statsEnd (k : Nat)
deriving DecidableEq

/-- The geometry identifiers created in Game.init (lines 108-121). -/
def geometryIdentifiers : List String := ["Ground", "Skybox", "GreenCube", "BlueWall"]

/-- The model identifiers created in Game.init (lines 124-127). -/
def modelIdentifiers : List String := ["Fox", "IceTruck"]

/-- The light identifiers created in Game.init (lines 130-135). -/
def lightIdentifiers : List String := ["MainSpotLight"]

/-- The body of the loadModels completion callback (lines 140-181). -/
def initCallbackEvents : List InitEv :=
  [InitEv.addThings geometryIdentifiers, InitEv.addThings modelIdentifiers,
   InitEv.addThings lightIdentifiers,
   InitEv.setCameraPosition 3 5 10, InitEv.lookAtTarget,
   InitEv.bindDeviceOrientationControls, InitEv.foxRepositioned,
   InitEv.soundSetup, InitEv.createGlobalAudio, InitEv.createPositionalAudio]

/-- One tick of Game._loop (lines 223-232): schedule the next frame, then
stats (debug only), controls update, render, stats end. -/
def loopTickEvents (debug : Bool) (k : Nat) : List InitEv :=
  [InitEv.scheduleFrame k]
  ++ (if debug then [InitEv.statsBegin k] else [])
  ++ [InitEv.controlsUpdate k, InitEv.renderCall k]
  ++ (if debug then [InitEv.statsEnd k] else [])

/-- The first `n` ticks of the loop. -/
def loopEvents (debug : Bool) (n : Nat) : List InitEv :=
  (List.range n).flatMap (loopTickEvents debug)

/-- The synchronous part of Game.init followed by the loadModels callback
body.  The geometry loads are submitted before the model loads and,
modelled from the spec (GeometryManager is not in the snapshot; the spec
requires all loads to complete strictly before composition), complete
before the model-load continuation fires. -/
def initSetupEvents : List InitEv :=
  [InitEv.createRenderer, InitEv.geometriesDefined,
   InitEv.lightCreated "MainSpotLight",
   InitEv.geometryLoadsComplete geometryIdentifiers,
   InitEv.modelLoadsComplete modelIdentifiers]
  ++ initCallbackEvents

/-- The full event trace of a session that runs `n` loop ticks. -/
def initEvents (debug : Bool) (n : Nat) : List InitEv :=
  initSetupEvents ++ loopEvents debug n

/-- The scene-composition state that the trace builds up. -/
structure SceneSetupState where
  sceneThings : List String
  cameraPosition : Option (Int × Int × Int)
  controlsBound : Bool
  geometriesLoaded : Bool
  modelsLoaded : Bool
deriving DecidableEq

/-- How each event updates the composition state. -/
def stepInit (s : SceneSetupState) (e : InitEv) : SceneSetupState :=
  match e with
  | InitEv.addThings ids => { s with sceneThings := s.sceneThings ++ ids }
  | InitEv.setCameraPosition x y z => { s with cameraPosition := some (x, y, z) }
  | InitEv.bindDeviceOrientationControls => { s with controlsBound := true }
  | InitEv.geometryLoadsComplete _ => { s with geometriesLoaded := true }
  | InitEv.modelLoadsComplete _ => { s with modelsLoaded := true }
  | _ => s

/-- The state before any event. -/
def initialSetup : SceneSetupState := ⟨[], none, false, false, false⟩

/-- The composition state after a list of events. -/
def runSetup (evs : List InitEv) : SceneSetupState := evs.foldl stepInit initialSetup

/-- Whether an event belongs to the render loop. -/
def isLoopEv : InitEv → Bool
  | InitEv.scheduleFrame _ => true
  | InitEv.statsBegin _ => true
  | InitEv.controlsUpdate _ => true
  | InitEv.renderCall _ => true
  | InitEv.statsEnd _ => true
  | _ => false

lemma stepInit_of_loopEv (s : SceneSetupState) (e : InitEv)
    (h : isLoopEv e = true) : stepInit s e = s := by
  cases e <;> first
  | rfl
  | simp [isLoopEv] at h

lemma foldl_stepInit_of_loop (l : List InitEv)
    (hl : ∀ e ∈ l, isLoopEv e = true) : ∀ s, l.foldl stepInit s = s := by
  induction l with
  | nil => intro s; rfl
  | cons e t ih =>
    intro s
    rw [List.foldl_cons, stepInit_of_loopEv s e (hl e (by simp)),
      ih (fun x hx => hl x (by simp [hx]))]

lemma loopEvents_all_loop (debug : Bool) (n : Nat) :
    ∀ e ∈ loopEvents debug n, isLoopEv e = true := by
  intro e he
  rw [loopEvents] at he
  obtain ⟨k, -, hk⟩ := List.mem_flatMap.mp he
  cases debug with
  | false =>
    simp [loopTickEvents] at hk
    rcases hk with rfl | rfl | rfl <;> rfl
  | true =>
    simp [loopTickEvents] at hk
    rcases hk with rfl | rfl | rfl | rfl | rfl <;> rfl

/-- C2: the render loop never issues a render call before the scene graph
is populated, the camera position is set, the orientation controls are
bound, and the geometry and model loads have completed: at every render
event of every trace, the state accumulated by the earlier events already
has all of these. -/
theorem renderLoop_starts_after_setup (debug : Bool) (n j k : Nat)
    (hj : (initEvents debug n)[j]? = some (InitEv.renderCall k)) :
    (runSetup ((initEvents debug n).take j)).sceneThings ≠ []
    ∧ (runSetup ((initEvents debug n).take j)).cameraPosition.isSome = true
    ∧ (runSetup ((initEvents debug n).take j)).controlsBound = true
    ∧ (runSetup ((initEvents debug n).take j)).geometriesLoaded = true
    ∧ (runSetup ((initEvents debug n).take j)).modelsLoaded = true := by
  have hjge : initSetupEvents.length ≤ j := by
    by_contra hcon
    push_neg at hcon
    rw [initEvents, List.getElem?_append, if_pos (by simpa using hcon)] at hj
    have hmem : InitEv.renderCall k ∈ initSetupEvents :=
      List.mem_iff_getElem?.mpr ⟨j, hj⟩
    simp [initSetupEvents, initCallbackEvents] at hmem
  have htake : (initEvents debug n).take j
      = initSetupEvents ++ (loopEvents debug n).take (j - initSetupEvents.length) := by
    rw [initEvents, List.take_append_eq_append_take, List.take_of_length_le hjge]
  rw [htake]
  simp only [runSetup, List.foldl_append]
  rw [foldl_stepInit_of_loop _
    (fun e he => loopEvents_all_loop debug n e (List.take_subset _ _ he))]
  refine ⟨?_, rfl, rfl, rfl, rfl⟩
  simp [initSetupEvents, initCallbackEvents, initialSetup, stepInit,
    geometryIdentifiers, modelIdentifiers, lightIdentifiers]

/-- Witness for C2: in the non-debug one-tick trace, the render call sits
at index 17, and the state accumulated before it is fully set up. -/
theorem renderLoop_starts_after_setup_witness :
    ((initEvents false 1)[17]? = some (InitEv.renderCall 0))
    ∧ ((runSetup ((initEvents false 1).take 17)).sceneThings ≠ []
      ∧ (runSetup ((initEvents false 1).take 17)).cameraPosition.isSome = true
      ∧ (runSetup ((initEvents false 1).take 17)).controlsBound = true
      ∧ (runSetup ((initEvents false 1).take 17)).geometriesLoaded = true
      ∧ (runSetup ((initEvents false 1).take 17)).modelsLoaded = true) :=
  ⟨by decide, renderLoop_starts_after_setup false 1 17 0 (by decide)⟩

/-- The actions a tick of Game._loop can perform; logError is the action
the loop would need for a log-and-skip error policy. -/
inductive LoopAction where
  | scheduleNext
  | statsBegin
  | controlsUpdate
  | render
  | statsEnd
  | logError
deriving DecidableEq

/-- Game._loop's tick (lines 223-232), action for action: the next frame
is requested first, unconditionally, and the only state the tick branches
on is the debug flag. -/
def loopTickActions (debugMode : Bool) : List LoopAction :=
  [LoopAction.scheduleNext]
  ++ (if debugMode then [LoopAction.statsBegin] else [])
  ++ [LoopAction.controlsUpdate, LoopAction.render]
  ++ (if debugMode then [LoopAction.statsEnd] else [])

/-- Counterexample for C6: the tick of Game._loop consults no stop flag:
for both values of the only flag it reads, its first action is already the
unconditional request of the next frame callback, so no state transition
can prevent further ticks. -/
theorem loop_no_stop_flag_counterexample :
    (loopTickActions true).head? = some LoopAction.scheduleNext
    ∧ (loopTickActions false).head? = some LoopAction.scheduleNext
    ∧ LoopAction.scheduleNext ∈ loopTickActions true
    ∧ LoopAction.scheduleNext ∈ loopTickActions false := by
  decide

/-- C6 (amended): every tick of the render loop unconditionally requests
the next frame callback as its very first action, in both debug and
non-debug mode; the loop continues by recursive frame-callback chaining
and checks no stop flag. -/
theorem loop_reschedules_unconditionally (debugMode : Bool) :
    (loopTickActions debugMode).head? = some LoopAction.scheduleNext
    ∧ LoopAction.scheduleNext ∈ loopTickActions debugMode := by
  cases debugMode <;> exact ⟨rfl, by decide⟩

/-- One tick of Game._loop with its observable effects when the fallible
operations may throw. -/
structure TickRun where
  executed : List LoopAction
  thrown : Option String
deriving DecidableEq

/-- Game._loop's tick (lines 223-232) when controls.update or
renderer.render may raise: there is no try/catch, so a raising operation
aborts the rest of the tick and the error escapes the callback; the next
frame request, issued first, has already happened. -/
def loopTickFallible (debugMode updateThrows renderThrows : Bool) : TickRun :=
  let a1 := [LoopAction.scheduleNext]
    ++ (if debugMode then [LoopAction.statsBegin] else [])
  if updateThrows then { executed := a1, thrown := some "controls.update" }
  else
    let a2 := a1 ++ [LoopAction.controlsUpdate]
    if renderThrows then { executed := a2, thrown := some "renderer.render" }
    else { executed := a2 ++ [LoopAction.render]
            ++ (if debugMode then [LoopAction.statsEnd] else []),
           thrown := none }

/-- Counterexample for C7: when controls.update raises on a tick, the loop
logs nothing — the error escapes the frame callback uncaught instead of
being logged and handled inside the loop. -/
theorem loop_tick_error_not_logged_counterexample :
    (loopTickFallible false true false).thrown = some "controls.update"
    ∧ LoopAction.logError ∉ (loopTickFallible false true false).executed := by
  decide

/-- C7 (amended): a tick whose controls update or render primitive raises
does not kill the loop — the next tick was already requested as the
tick's first action and the remainder of the tick is skipped — but the
loop itself neither catches nor logs the error: it escapes the frame
callback (thrown is set and no logError action is ever executed). -/
theorem loop_tick_error_skips_but_reschedules (debugMode updateThrows renderThrows : Bool) :
    (loopTickFallible debugMode updateThrows renderThrows).executed.head?
        = some LoopAction.scheduleNext
    ∧ LoopAction.scheduleNext ∈ (loopTickFallible debugMode updateThrows renderThrows).executed
    ∧ LoopAction.logError ∉ (loopTickFallible debugMode updateThrows renderThrows).executed
    ∧ (loopTickFallible debugMode true renderThrows).thrown = some "controls.update"
    ∧ LoopAction.render ∉ (loopTickFallible debugMode true renderThrows).executed
    ∧ LoopAction.statsEnd ∉ (loopTickFallible debugMode true renderThrows).executed
    ∧ (loopTickFallible debugMode false true).thrown = some "renderer.render"
    ∧ LoopAction.statsEnd ∉ (loopTickFallible debugMode false true).executed
    ∧ (loopTickFallible debugMode false false).thrown = none := by
  cases debugMode <;> cases updateThrows <;> cases renderThrows <;> decide

/-- The possible outcomes of one click on the cover element (constructor
lines 65-92): either DeviceOrientationEvent.requestPermission is not a
function (non-iOS13 path), or the permission promise resolves with a
response string, or it rejects. -/
inductive PermOutcome where
  | notFunction
  | resolved (response : String)
  | rejected (message : String)
deriving DecidableEq

/-- Whether a click outcome leads to this.init() (lines 72-86): directly
when requestPermission is absent, and on resolution only when the
response equals "granted"; a rejected promise only logs. -/
def permAllows : PermOutcome → Bool
  | PermOutcome.notFunction => true
  | PermOutcome.resolved response => response == "granted"
  | PermOutcome.rejected _ => false

/-- The boot state: the cover element (removed on first click), whether
the WebGL renderer was created and whether init() ever started. -/
structure BootState where
  coverPresent : Bool
  rendererCreated : Bool
  initStarted : Bool
deriving DecidableEq

/-- One cover click: the listener is attached to the cover, which is
removed on the first click, so later clicks are no-ops; init() (which
creates the renderer as its first step, lines 98-105) runs only when the
permission outcome allows it. -/
def bootStep (s : BootState) (click : PermOutcome) : BootState :=
  if s.coverPresent then
    if permAllows click then
      { coverPresent := false, rendererCreated := true, initStarted := true }
    else
      { s with coverPresent := false }
  else s

/-- The state right after the constructor ran: cover up, nothing created. -/
def initialBoot : BootState := ⟨true, false, false⟩

/-- The boot state after a sequence of cover clicks. -/
def runBoot (clicks : List PermOutcome) : BootState :=
  clicks.foldl bootStep initialBoot

lemma bootStep_no_cover (s : BootState) (c : PermOutcome)
    (h : s.coverPresent = false) : bootStep s c = s := by
  simp [bootStep, h]

/-- C10: initialization (renderer creation included) begins exactly when
the first cover click's permission outcome allows it — requestPermission
absent, or resolved with "granted"; with no click, a denied response or a
rejected request, the system stays in the pre-render state with no
renderer created (rendererCreated always equals initStarted). -/
theorem init_requires_click_and_grant (clicks : List PermOutcome) :
    ((runBoot clicks).initStarted = true ↔
      ∃ p, clicks.head? = some p ∧ permAllows p = true)
    ∧ (runBoot clicks).rendererCreated = (runBoot clicks).initStarted := by
  have hfrozen : ∀ (l : List PermOutcome) (s : BootState), s.coverPresent = false →
      l.foldl bootStep s = s := by
    intro l
    induction l with
    | nil => intro s _; rfl
    | cons c t ih =>
      intro s hs
      rw [List.foldl_cons, bootStep_no_cover s c hs, ih s hs]
  cases clicks with
  | nil => simp [runBoot, initialBoot]
  | cons p rest =>
    by_cases hp : permAllows p = true
    · have hs1 : bootStep initialBoot p = ⟨false, true, true⟩ := by
        simp [bootStep, initialBoot, hp]
      rw [runBoot, List.foldl_cons, hs1, hfrozen rest _ rfl]
      exact ⟨⟨fun _ => ⟨p, rfl, hp⟩, fun _ => rfl⟩, rfl⟩
    · have hs1 : bootStep initialBoot p = { initialBoot with coverPresent := false } := by
        simp [bootStep, initialBoot, hp]
      rw [runBoot, List.foldl_cons, hs1, hfrozen rest _ rfl]
      refine ⟨⟨fun h => absurd h (by simp [initialBoot]), ?_⟩, rfl⟩
      rintro ⟨q, hq, ha⟩
      rw [List.head?_cons] at hq
      rw [(Option.some.inj hq).symm] at ha
      exact absurd ha hp

/-- Witness for C10: a single click whose permission response is denied
leaves the system stopped with no renderer. -/
theorem init_requires_click_and_grant_witness :
    (runBoot [PermOutcome.resolved "denied"]).initStarted = false
    ∧ (runBoot [PermOutcome.resolved "denied"]).rendererCreated
        = (runBoot [PermOutcome.resolved "denied"]).initStarted :=
  ⟨by decide, (init_requires_click_and_grant [PermOutcome.resolved "denied"]).2⟩
